import Mathlib

/-!
Shallow embedding of the project-dashboard Flask application (src/app.py):
the path sandbox checks, the recursive directory scanner, the browse
listing pipeline, the file reader and the project registry, together with
theorems settling the specification claims about them.

Filesystem syscalls (os.path.exists, os.path.isdir, os.path.isfile,
os.path.realpath, os.listdir, os.stat, os.path.getsize, open/read and
os.walk) are modelled as oracle functions packaged in an `FS` record; the
handlers are pure functions of that record, mirroring the Python control
flow line by line.
-/

/-- PROJECT_ROOT constant from app.py line 19. -/
def PROJECT_ROOT : String := "/home/dragon"

/-! ### Path string helpers (embedding Python string/os.path operations) -/

/-- Embeds the Python substring test `'..' in s`: true when the two
characters `.` `.` occur adjacently anywhere in the list. -/
def hasDotDot : List Char → Bool
  | [] => false
  | [_] => false
  | a :: b :: rest => (a = '.' && b = '.') || hasDotDot (b :: rest)

/-- Embeds `s.startswith('/')` for the syntactic sandbox pre-filter. -/
def startsWithSlash (s : String) : Bool :=
  match s.data with
  | '/' :: _ => true
  | _ => false

/-- Embeds the general Python `s.startswith(p)` (used on realpath output):
plain string matching at the start, with no separator-boundary awareness. -/
def startswithStr (s p : String) : Bool :=
  p.data.isPrefixOf s.data

/-- Strict lexicographic comparison of character lists by code point,
the ordering Python uses to compare strings. -/
def charsLt : List Char → List Char → Bool
  | [], [] => false
  | [], _ :: _ => true
  | _ :: _, [] => false
  | a :: as, b :: bs => a < b || (a = b && charsLt as bs)

/-- Non-strict string comparison by code point: the comparison `sorted`
performs on the entry names. -/
def strLe (a b : String) : Bool :=
  !charsLt b.data a.data

/-- Splits a character list on `/`, like Python path-segment structure.
Always returns a nonempty list of segments. -/
def segmentsCh : List Char → List (List Char)
  | [] => [[]]
  | c :: rest =>
    if c = '/' then [] :: segmentsCh rest
    else
      match segmentsCh rest with
      | [] => [[c]]
      | s :: ss => (c :: s) :: ss

/-- Rejoins segments with `/` between them (inverse of `segmentsCh`). -/
def joinSegs : List (List Char) → List Char
  | [] => []
  | [s] => s
  | s :: rest => s ++ '/' :: joinSegs rest

/-- Embeds `os.path.dirname`: everything before the last separator. -/
def dirname (s : String) : String :=
  ⟨joinSegs (segmentsCh s.data).dropLast⟩

/-- Embeds `os.path.basename`: the part after the last separator. -/
def basename (s : String) : String :=
  ⟨(segmentsCh s.data).getLastD []⟩

/-- Embeds `os.path.join a b` at the call sites of app.py, where `b` is
never absolute: append with a separator unless one is already present. -/
def joinPath (a b : String) : String :=
  if a.data.getLastD '/' = '/' then a ++ b else a ++ "/" ++ b

/-! ### Filesystem tree model and DirectoryScanner (count_files, get_last_modified) -/

/-- A filesystem subtree as seen by `os.walk`: a file carries its
modification time, a directory carries named children. -/
inductive FsTree where
  | file : Nat → FsTree
  | dir : List (String × FsTree) → FsTree

/-- The exclusion test of app.py lines 96 and 108:
`not d.startswith('.') and d not in ['node_modules', '__pycache__', 'venv', '.git']`,
here phrased as the condition for pruning. -/
def excluded (d : String) : Bool :=
  startswithStr d "." || ["node_modules", "__pycache__", "venv", ".git"].contains d

/-- Recursive file count over the children of a directory, with excluded
subdirectories pruned before descent, embedding the `os.walk` loop of
`count_files` (app.py lines 95 to 97): every file at the current level is
counted (files are never filtered), and only non-excluded subdirectories
are recursed into. -/
def countChildren : List (String × FsTree) → Nat
  | [] => 0
  | (_, .file _) :: rest => 1 + countChildren rest
  | (d, .dir cs) :: rest =>
      (if excluded d then 0 else countChildren cs) + countChildren rest

/-- Embeds `count_files(directory)` from app.py lines 91 to 100, as a function of
the subtree rooted at the directory (`os.walk` of a non-directory yields
nothing, hence count 0). -/
def count_files : FsTree → Nat
  | .file _ => 0
  | .dir cs => countChildren cs

/-- Running maximum of file modification times over the walk with the same
pruning, starting from 0, embedding the loop of `get_last_modified`
(app.py lines 105 to 117). -/
def latestChildren : List (String × FsTree) → Nat
  | [] => 0
  | (_, .file m) :: rest => max m (latestChildren rest)
  | (d, .dir cs) :: rest =>
      max (if excluded d then 0 else latestChildren cs) (latestChildren rest)

/-- Embeds `get_last_modified` (app.py lines 103 to 122): the maximal mtime when
positive, else the Unknown outcome (`none`); the strftime formatting of
the timestamp is not modelled. -/
def get_last_modified : FsTree → Option Nat
  | .file _ => none
  | .dir cs => if latestChildren cs > 0 then some (latestChildren cs) else none

/-! ### Filesystem oracle record -/

/-- The filesystem syscalls used by the handlers, as oracle functions.
A concrete value of this record fixes one filesystem state; the handlers
below are pure functions of it. `tree p` is the subtree that `os.walk p`
traverses; `listdirRaw p` is the raw, unspecified-order result of
`os.listdir p`; `stat p` is `none` when `os.stat` raises
PermissionError or FileNotFoundError; `bytes p` are the file contents. -/
structure FS where
  pathExists : String → Bool
  isDir : String → Bool
  isFile : String → Bool
  realpath : String → String
  listdirRaw : String → List String
  stat : String → Option (Nat × Nat)
  getsize : String → Nat
  bytes : String → List Nat
  tree : String → FsTree

/-! ### BrowseService (api_browse, app.py lines 172 to 230) -/

/-- One element of the items array built by api_browse: name, relative
path, the type tag, size (`none` for directories, matching the Python
None) and the raw modification time (strftime formatting not modelled). -/
structure DirItem where
  name : String
  path : String
  itype : String
  size : Option Nat
  modified : Nat
deriving Repr, DecidableEq

/-- The JSON object returned on success by api_browse. -/
structure DirectoryListing where
  current_path : String
  items : List DirItem
  parent_path : Option String
deriving Repr, DecidableEq

/-- The possible responses of api_browse, tagged by their meaning. -/
inductive BrowseResult where
  | invalidPath
  | accessDenied
  | notFound
  | notADirectory
  | ok : DirectoryListing → BrowseResult
deriving Repr, DecidableEq

/-- HTTP status code attached to each api_browse response in app.py. -/
def BrowseResult.status : BrowseResult → Nat
  | .invalidPath => 400
  | .accessDenied => 403
  | .notFound => 404
  | .notADirectory => 400
  | .ok _ => 200

/-- The entry filter of app.py line 198:
`entry.startswith('.') or entry in ['node_modules', '__pycache__', 'venv']`. -/
def browseHidden (entry : String) : Bool :=
  startswithStr entry "." || ["node_modules", "__pycache__", "venv"].contains entry

/-- Embeds `sorted(...)` of Python on strings: lexicographic ascending
sort by code point (string keys are equal only when the strings are, so
any correct sort, here insertion sort, is pointwise equal to Timsort). -/
def sortStrings (l : List String) : List String :=
  List.insertionSort (fun a b => strLe a b = true) l

/-- The loop body of app.py lines 197 to 216 applied to the pre-sorted
entry list: skip hidden and noise names, then stat each survivor, skipping
entries whose stat fails, and build the item record exactly as the code
does (directories get size None). -/
def buildItems (fs : FS) (subpath target : String) (entries : List String) : List DirItem :=
  (entries.filter (fun e => !browseHidden e)).filterMap (fun entry =>
    let full_path := joinPath target entry
    match fs.stat full_path with
    | none => none
    | some (sz, mtime) =>
      let is_dir := fs.isDir full_path
      some { name := entry
             path := if subpath = "" then entry else joinPath subpath entry
             itype := if is_dir then "directory" else "file"
             size := if is_dir then none else some sz
             modified := mtime })

/-- api_browse (app.py lines 172 to 230) with the raw `os.listdir` result
passed explicitly, so that its unspecified ordering can be quantified
over. Control flow mirrors the Python: syntactic filter, realpath
startswith check, existence check, directory check, then sorted listing,
per-entry filtering and stat, and the directories-before-files partition. -/
def api_browse_raw (fs : FS) (raw : List String) (subpath : String) : BrowseResult :=
  if hasDotDot subpath.data || startsWithSlash subpath then .invalidPath
  else
    let target_path := if subpath = "" then PROJECT_ROOT else joinPath PROJECT_ROOT subpath
    let real_target := fs.realpath target_path
    let real_root := fs.realpath PROJECT_ROOT
    if !startswithStr real_target real_root then .accessDenied
    else if !fs.pathExists target_path then .notFound
    else if !fs.isDir target_path then .notADirectory
    else
      let items := buildItems fs subpath target_path (sortStrings raw)
      let directories := items.filter (fun it => it.itype = "directory")
      let files := items.filter (fun it => it.itype = "file")
      .ok { current_path := subpath
            items := directories ++ files
            parent_path := if subpath = "" then none else some (dirname subpath) }

/-- api_browse proper: the raw listing comes from the filesystem. -/
def api_browse (fs : FS) (subpath : String) : BrowseResult :=
  api_browse_raw fs
    (fs.listdirRaw (if subpath = "" then PROJECT_ROOT else joinPath PROJECT_ROOT subpath))
    subpath

/-! ### FileReader (api_read_file, app.py lines 233 to 285) -/

/-- The size in mebibytes times 100, rounded half to even: the value that
the format expression `f-string {file_size / 1024 / 1024:.2f}` prints
(float division by 1024 twice is exact for any realistic size, and the
two-decimal rendering of that exact binary rational rounds half to even). -/
def mbCentis (size : Nat) : Nat :=
  let num := size * 100
  let q := num / 1048576
  let r := num % 1048576
  if 1048576 < 2 * r then q + 1
  else if 2 * r < 1048576 then q
  else if q % 2 = 0 then q else q + 1

/-- Renders `mbCentis` with two decimal places, as `:.2f` does. -/
def formatMB (size : Nat) : String :=
  let c := mbCentis size
  let f := c % 100
  toString (c / 100) ++ "." ++ (if f < 10 then "0" else "") ++ toString f

/-- The message of the TooLarge response (app.py line 258). -/
def tooLargeMessage (size : Nat) : String :=
  "File size: " ++ formatMB size ++ "MB. Maximum: 1MB"

/-- Strict UTF-8 decoding of a byte list, as `open(..., encoding='utf-8')`
followed by `read()` performs (raising UnicodeDecodeError, here `none`, on
any invalid sequence): continuation bytes lie in 80..BF, overlong
encodings, surrogates and code points above 10FFFF are rejected. Newline
translation of text mode is not modelled. -/
def decodeUtf8 : List Nat → Option (List Char)
  | [] => some []
  | b0 :: rest =>
    if b0 < 0x80 then
      (decodeUtf8 rest).map (fun cs => Char.ofNat b0 :: cs)
    else if b0 < 0xC2 then none
    else if b0 < 0xE0 then
      match rest with
      | b1 :: r =>
        if 0x80 ≤ b1 ∧ b1 < 0xC0 then
          (decodeUtf8 r).map (fun cs =>
            Char.ofNat ((b0 - 0xC0) * 0x40 + (b1 - 0x80)) :: cs)
        else none
      | [] => none
    else if b0 < 0xF0 then
      match rest with
      | b1 :: b2 :: r =>
        if (if b0 = 0xE0 then 0xA0 else 0x80) ≤ b1 ∧
           b1 < (if b0 = 0xED then 0xA0 else 0xC0) ∧
           0x80 ≤ b2 ∧ b2 < 0xC0 then
          (decodeUtf8 r).map (fun cs =>
            Char.ofNat ((b0 - 0xE0) * 0x1000 + (b1 - 0x80) * 0x40 + (b2 - 0x80)) :: cs)
        else none
      | _ => none
    else if b0 < 0xF5 then
      match rest with
      | b1 :: b2 :: b3 :: r =>
        if (if b0 = 0xF0 then 0x90 else 0x80) ≤ b1 ∧
           b1 < (if b0 = 0xF4 then 0x90 else 0xC0) ∧
           0x80 ≤ b2 ∧ b2 < 0xC0 ∧ 0x80 ≤ b3 ∧ b3 < 0xC0 then
          (decodeUtf8 r).map (fun cs =>
            Char.ofNat ((b0 - 0xF0) * 0x40000 + (b1 - 0x80) * 0x1000 +
              (b2 - 0x80) * 0x40 + (b3 - 0x80)) :: cs)
        else none
      | _ => none
    else none

/-- The possible responses of api_read_file. The binary outcome carries
name, path and size but has no content field, exactly like the JSON built
at app.py lines 273 to 280. -/
inductive ReadResult where
  | invalidPath
  | accessDenied
  | notFound
  | notAFile
  | tooLarge : String → ReadResult
  | binary : String → String → Nat → ReadResult
  | okText : String → String → String → Nat → ReadResult
deriving Repr, DecidableEq

/-- HTTP status code attached to each api_read_file response in app.py. -/
def ReadResult.status : ReadResult → Nat
  | .invalidPath => 400
  | .accessDenied => 403
  | .notFound => 404
  | .notAFile => 400
  | .tooLarge _ => 413
  | .binary _ _ _ => 415
  | .okText _ _ _ _ => 200

/-- api_read_file (app.py lines 233 to 285): syntactic filter, realpath
startswith check, existence and file checks, size ceiling with the
formatted message, then UTF-8 decode deciding between the text and the
binary response. -/
def api_read_file (fs : FS) (filepath : String) : ReadResult :=
  if hasDotDot filepath.data || startsWithSlash filepath then .invalidPath
  else
    let target_path := joinPath PROJECT_ROOT filepath
    let real_target := fs.realpath target_path
    let real_root := fs.realpath PROJECT_ROOT
    if !startswithStr real_target real_root then .accessDenied
    else if !fs.pathExists target_path then .notFound
    else if !fs.isFile target_path then .notAFile
    else
      let file_size := fs.getsize target_path
      if file_size > 1024 * 1024 then .tooLarge (tooLargeMessage file_size)
      else
        match decodeUtf8 (fs.bytes target_path) with
        | some cs => .okText (basename filepath) filepath ⟨cs⟩ file_size
        | none => .binary (basename filepath) filepath file_size

/-! ### ProjectRegistry (get_projects, app.py lines 32 to 77) -/

/-- The main_projects table of app.py lines 37 to 42, in insertion order. -/
def main_projects : List (String × String) :=
  [("threat-intel-aggregator", "Threat Intelligence Aggregator with Discord integration"),
   ("trading", "Freqtrade Trading Bot and Strategies"),
   ("fishtracker", "Fish Tracking Application"),
   ("sectop", "Security Operations Tools")]

/-- The tooling_areas table of app.py lines 45 to 49, in insertion order. -/
def tooling_areas : List (String × String) :=
  [("claude-git-control", "Claude Git Workflows and Templates"),
   ("claude-backups", "Claude Session Backups"),
   ("project-dashboard", "Project Dashboard (This App)")]

/-- One element of the projects array. -/
structure ProjectInfo where
  name : String
  description : String
  ptype : String
  path : String
  files_count : Nat
  last_modified : Option Nat
  status : String
deriving Repr, DecidableEq

/-- get_project_status (app.py lines 80 to 88): both branches of the git
check return the active status. -/
def get_project_status (fs : FS) (directory : String) : String :=
  if fs.pathExists (joinPath directory ".git") then "active" else "active"

/-- Builds the entry appended for one existing configured directory. -/
def projectEntry (fs : FS) (ptype status : String) (nd : String × String) : ProjectInfo :=
  let dir_path := joinPath PROJECT_ROOT nd.1
  { name := nd.1
    description := nd.2
    ptype := ptype
    path := nd.1
    files_count := count_files (fs.tree dir_path)
    last_modified := get_last_modified (fs.tree dir_path)
    status := status }

/-- get_projects (app.py lines 32 to 77): iterate the main table in
configured order appending an entry for each existing directory, then the
tooling table likewise; the project entries use get_project_status, the
tooling entries the literal active status. -/
def get_projects (fs : FS) : List ProjectInfo :=
  (main_projects.filter (fun nd => fs.pathExists (joinPath PROJECT_ROOT nd.1))).map
    (fun nd =>
      projectEntry fs "project" (get_project_status fs (joinPath PROJECT_ROOT nd.1)) nd)
  ++ (tooling_areas.filter (fun nd => fs.pathExists (joinPath PROJECT_ROOT nd.1))).map
    (fun nd => projectEntry fs "tooling" "active" nd)

/-! ### The boundary-aware containment check the spec describes -/

/-- Modelled from the spec: the separator-boundary-aware containment
check PathSandbox is specified to perform on the canonical paths (the
canonical candidate equals the canonical root or extends it at a
path-separator boundary). The code instead compares with plain
startswith; the two differ on sibling directories such as /home/dragonX. -/
def boundaryWithin (root target : String) : Bool :=
  target = root || startswithStr target (root ++ "/")

/-! ### Concrete filesystem states used by the theorems -/

/-- A filesystem with nothing in it. -/
def fsEmpty : FS :=
  { pathExists := fun _ => false
    isDir := fun _ => false
    isFile := fun _ => false
    realpath := fun p => p
    listdirRaw := fun _ => []
    stat := fun _ => none
    getsize := fun _ => 0
    bytes := fun _ => []
    tree := fun _ => FsTree.dir [] }

/-- A filesystem in which /home/dragon/link is a symlink to the sibling
directory /home/dragonX: realpath maps the candidate inside the root to
a path outside it whose string merely extends the root name. -/
def fsC1 : FS :=
  { pathExists := fun p => p = "/home/dragon/link"
    isDir := fun p => p = "/home/dragon/link"
    isFile := fun _ => false
    realpath := fun p => if p = "/home/dragon/link" then "/home/dragonX" else p
    listdirRaw := fun _ => []
    stat := fun _ => none
    getsize := fun _ => 0
    bytes := fun _ => []
    tree := fun _ => FsTree.dir [] }

/-- The ordering scenario: /home/dragon/d holds children zeta.txt,
Alpha (a directory) and beta.txt, listed by listdir in that raw order. -/
def fsScen : FS :=
  { pathExists := fun p => p = "/home/dragon/d"
    isDir := fun p => p = "/home/dragon/d" || p = "/home/dragon/d/Alpha"
    isFile := fun _ => false
    realpath := fun p => p
    listdirRaw := fun p => if p = "/home/dragon/d" then ["zeta.txt", "Alpha", "beta.txt"] else []
    stat := fun p =>
      if p = "/home/dragon/d/Alpha" then some (0, 10)
      else if p = "/home/dragon/d/beta.txt" then some (4, 11)
      else if p = "/home/dragon/d/zeta.txt" then some (9, 12)
      else none
    getsize := fun _ => 0
    bytes := fun _ => []
    tree := fun _ => FsTree.dir [] }

/-- The listing api_browse produces in the ordering scenario. -/
def scenListing : DirectoryListing :=
  { current_path := "d"
    items := [{ name := "Alpha", path := "d/Alpha", itype := "directory",
                size := none, modified := 10 },
              { name := "beta.txt", path := "d/beta.txt", itype := "file",
                size := some 4, modified := 11 },
              { name := "zeta.txt", path := "d/zeta.txt", itype := "file",
                size := some 9, modified := 12 }]
    parent_path := some "" }

/-- A root directory whose only child is the hidden file .secret. -/
def fsHidden : FS :=
  { pathExists := fun p => p = "/home/dragon"
    isDir := fun p => p = "/home/dragon"
    isFile := fun _ => false
    realpath := fun p => p
    listdirRaw := fun p => if p = "/home/dragon" then [".secret"] else []
    stat := fun p => if p = "/home/dragon/.secret" then some (7, 3) else none
    getsize := fun _ => 0
    bytes := fun _ => []
    tree := fun p =>
      if p = "/home/dragon" then FsTree.dir [(".secret", FsTree.file 3)] else FsTree.dir []}

/-- A filesystem holding the single 2 MiB file /home/dragon/big.bin. -/
def fsBig : FS :=
  { pathExists := fun p => p = "/home/dragon/big.bin"
    isDir := fun _ => false
    isFile := fun p => p = "/home/dragon/big.bin"
    realpath := fun p => p
    listdirRaw := fun _ => []
    stat := fun _ => none
    getsize := fun p => if p = "/home/dragon/big.bin" then 2097152 else 0
    bytes := fun _ => []
    tree := fun _ => FsTree.dir [] }

/-- A filesystem holding the 3-byte file /home/dragon/blob.bin whose
first byte 0xFF can start no valid UTF-8 sequence. -/
def fsBlob : FS :=
  { pathExists := fun p => p = "/home/dragon/blob.bin"
    isDir := fun _ => false
    isFile := fun p => p = "/home/dragon/blob.bin"
    realpath := fun p => p
    listdirRaw := fun _ => []
    stat := fun _ => none
    getsize := fun p => if p = "/home/dragon/blob.bin" then 3 else 0
    bytes := fun p => if p = "/home/dragon/blob.bin" then [255, 0, 1] else []
    tree := fun _ => FsTree.dir [] }

/-- A filesystem in which only the configured directories trading and
project-dashboard exist. -/
def fsReg : FS :=
  { pathExists := fun p => p = "/home/dragon/trading" || p = "/home/dragon/project-dashboard"
    isDir := fun _ => false
    isFile := fun _ => false
    realpath := fun p => p
    listdirRaw := fun _ => []
    stat := fun _ => none
    getsize := fun _ => 0
    bytes := fun _ => []
    tree := fun _ => FsTree.dir [] }

/-! ### Order properties of the string comparison -/

theorem charsLt_irrefl : ∀ l, charsLt l l = false
  | [] => rfl
  | a :: as => by simp [charsLt, charsLt_irrefl as]

theorem charsLt_trans :
    ∀ {a b c : List Char}, charsLt a b = true → charsLt b c = true → charsLt a c = true
  | [], [], _, h1, _ => by simp [charsLt] at h1
  | [], _ :: _, [], _, h2 => by simp [charsLt] at h2
  | [], _ :: _, _ :: _, _, _ => by simp [charsLt]
  | _ :: _, [], _, h1, _ => by simp [charsLt] at h1
  | _ :: _, _ :: _, [], _, h2 => by simp [charsLt] at h2
  | x :: xs, y :: ys, z :: zs, h1, h2 => by
    simp only [charsLt, Bool.or_eq_true, Bool.and_eq_true, decide_eq_true_eq] at h1 h2 ⊢
    rcases h1 with h1 | ⟨rfl, h1⟩
    · rcases h2 with h2 | ⟨rfl, h2⟩
      · exact Or.inl (h1.trans h2)
      · exact Or.inl h1
    · rcases h2 with h2 | ⟨rfl, h2⟩
      · exact Or.inl h2
      · exact Or.inr ⟨rfl, charsLt_trans h1 h2⟩

theorem charsLt_connex :
    ∀ {a b : List Char}, charsLt a b = false → charsLt b a = false → a = b
  | [], [], _, _ => rfl
  | [], _ :: _, h1, _ => by simp [charsLt] at h1
  | _ :: _, [], _, h2 => by simp [charsLt] at h2
  | x :: xs, y :: ys, h1, h2 => by
    simp only [charsLt, Bool.or_eq_false_iff, Bool.and_eq_false_iff,
      decide_eq_false_iff_not] at h1 h2
    have hxy : x = y := le_antisymm (not_lt.mp h2.1) (not_lt.mp h1.1)
    subst hxy
    rcases h1.2 with h | h
    · exact absurd rfl h
    · rcases h2.2 with h' | h'
      · exact absurd rfl h'
      · rw [charsLt_connex h h']

theorem charsLt_asymm {a b : List Char} (h : charsLt a b = true) : charsLt b a = false := by
  rcases hba : charsLt b a with _ | _
  · rfl
  · have := charsLt_trans h hba
    rw [charsLt_irrefl] at this
    exact absurd this (by simp)

instance strLeTotal : IsTotal String (fun a b => strLe a b = true) where
  total a b := by
    simp only [strLe, Bool.not_eq_true']
    rcases h : charsLt b.data a.data with _ | _
    · exact Or.inl rfl
    · exact Or.inr (charsLt_asymm h)

instance strLeTrans : IsTrans String (fun a b => strLe a b = true) where
  trans a b c hab hbc := by
    simp only [strLe, Bool.not_eq_true'] at hab hbc ⊢
    rcases hca : charsLt c.data a.data with _ | _
    · rfl
    · rcases hbc2 : charsLt b.data c.data with _ | _
      · have hbceq : b.data = c.data := charsLt_connex hbc2 hbc
        rw [← hbceq] at hca
        rw [hca] at hab
        exact absurd hab (by simp)
      · have := charsLt_trans hbc2 hca
        rw [this] at hab
        exact absurd hab (by simp)

instance strLeAntisymm : IsAntisymm String (fun a b => strLe a b = true) where
  antisymm a b hab hba := by
    simp only [strLe, Bool.not_eq_true'] at hab hba
    have : a.data = b.data := charsLt_connex hba hab
    cases a; cases b
    exact congrArg String.mk this

theorem sortStrings_sorted (l : List String) :
    List.Sorted (fun a b => strLe a b = true) (sortStrings l) :=
  List.sorted_insertionSort _ l

theorem sortStrings_perm (l : List String) : (sortStrings l).Perm l :=
  List.perm_insertionSort _ l

theorem sortStrings_eq_of_perm {l1 l2 : List String} (h : l1.Perm l2) :
    sortStrings l1 = sortStrings l2 :=
  List.eq_of_perm_of_sorted ((sortStrings_perm l1).trans (h.trans (sortStrings_perm l2).symm))
    (sortStrings_sorted l1) (sortStrings_sorted l2)

/-! ### Segment lemmas for the syntactic pre-filter -/

theorem segmentsCh_ne_nil : ∀ l, segmentsCh l ≠ []
  | [] => by simp [segmentsCh]
  | c :: rest => by
    simp only [segmentsCh]
    split
    · simp
    · split <;> simp

theorem segmentsCh_head_decomp :
    ∀ (l s : List Char) (ss : List (List Char)),
      segmentsCh l = s :: ss → ∃ t, l = s ++ t := by
  intro l
  induction l with
  | nil =>
    intro s ss h
    simp only [segmentsCh, List.cons.injEq] at h
    exact ⟨[], by simp [← h.1]⟩
  | cons c rest ih =>
    intro s ss h
    by_cases hc : c = '/'
    · simp only [segmentsCh, if_pos hc, List.cons.injEq] at h
      exact ⟨c :: rest, by simp [← h.1]⟩
    · cases hrest : segmentsCh rest with
      | nil => exact absurd hrest (segmentsCh_ne_nil rest)
      | cons s' ss' =>
        simp only [segmentsCh, if_neg hc, hrest, List.cons.injEq] at h
        obtain ⟨t, ht⟩ := ih s' ss' hrest
        refine ⟨t, ?_⟩
        rw [← h.1, ht]
        simp

theorem segmentsCh_mem_decomp :
    ∀ (l s : List Char), s ∈ segmentsCh l → ∃ u v, l = u ++ s ++ v := by
  intro l
  induction l with
  | nil =>
    intro s h
    simp only [segmentsCh, List.mem_singleton] at h
    exact ⟨[], [], by simp [h]⟩
  | cons c rest ih =>
    intro s h
    by_cases hc : c = '/'
    · simp only [segmentsCh, if_pos hc, List.mem_cons] at h
      rcases h with rfl | h
      · exact ⟨[], c :: rest, by simp⟩
      · obtain ⟨u, v, huv⟩ := ih s h
        exact ⟨c :: u, v, by simp [huv]⟩
    · cases hrest : segmentsCh rest with
      | nil => exact absurd hrest (segmentsCh_ne_nil rest)
      | cons s' ss' =>
        simp only [segmentsCh, if_neg hc, hrest, List.mem_cons] at h
        rcases h with rfl | h
        · obtain ⟨t, ht⟩ := segmentsCh_head_decomp rest s' ss' hrest
          exact ⟨[], t, by simp [ht]⟩
        · have hmem : s ∈ segmentsCh rest := by rw [hrest]; exact List.mem_cons_of_mem _ h
          obtain ⟨u, v, huv⟩ := ih s hmem
          exact ⟨c :: u, v, by simp [huv]⟩

theorem hasDotDot_mid : ∀ (u v : List Char), hasDotDot (u ++ '.' :: '.' :: v) = true := by
  intro u v
  induction u with
  | nil => simp [hasDotDot]
  | cons a u ih =>
    cases u with
    | nil => simp_all [hasDotDot]
    | cons b u => simp_all [hasDotDot]

theorem hasDotDot_of_segment {l : List Char} (h : ['.', '.'] ∈ segmentsCh l) :
    hasDotDot l = true := by
  obtain ⟨u, v, huv⟩ := segmentsCh_mem_decomp l _ h
  rw [huv]
  simpa using hasDotDot_mid u v

/-! ### Shape of the api_browse success listing -/

theorem filterMap_names_sublist {α β : Type} (f : α → Option β) (g : β → α)
    (hf : ∀ a b, f a = some b → g b = a) :
    ∀ l : List α, List.Sublist ((l.filterMap f).map g) l := by
  intro l
  induction l with
  | nil => simp
  | cons a l ih =>
    cases hfa : f a with
    | none =>
      rw [List.filterMap_cons_none hfa]
      exact ih.cons a
    | some b =>
      rw [List.filterMap_cons_some hfa, List.map_cons, hf a b hfa]
      exact ih.cons₂ a

theorem buildItems_names_sublist (fs : FS) (sub targ : String) (entries : List String) :
    List.Sublist ((buildItems fs sub targ entries).map DirItem.name) entries := by
  unfold buildItems
  refine (filterMap_names_sublist _ DirItem.name ?_ _).trans (List.filter_sublist entries)
  intro a b h
  dsimp only at h
  cases hs : fs.stat (joinPath targ a) with
  | none => simp [hs] at h
  | some pr =>
    cases pr with
    | mk sz mt =>
      simp only [hs] at h
      cases h
      rfl

theorem buildItems_sorted (fs : FS) (sub targ : String) (entries : List String)
    (h : List.Sorted (fun a b => strLe a b = true) entries) :
    List.Sorted (fun x y : DirItem => strLe x.name y.name = true)
      (buildItems fs sub targ entries) := by
  have hnames : List.Sorted (fun a b => strLe a b = true)
      ((buildItems fs sub targ entries).map DirItem.name) :=
    h.sublist (buildItems_names_sublist fs sub targ entries)
  exact (List.pairwise_map).mp hnames

theorem api_browse_raw_ok_shape (fs : FS) (raw : List String) (p : String)
    (L : DirectoryListing) (h : api_browse_raw fs raw p = .ok L) :
    ∃ ds fls, L.items = ds ++ fls ∧
      (∀ it ∈ ds, it.itype = "directory") ∧
      (∀ it ∈ fls, it.itype = "file") ∧
      List.Sorted (fun x y : DirItem => strLe x.name y.name = true) ds ∧
      List.Sorted (fun x y : DirItem => strLe x.name y.name = true) fls := by
  have main : ∀ (items : List DirItem) (cp : String) (pp : Option String),
      L = { current_path := cp,
            items := items.filter (fun it => it.itype = "directory") ++
                     items.filter (fun it => it.itype = "file"),
            parent_path := pp } →
      List.Sorted (fun x y : DirItem => strLe x.name y.name = true) items →
      ∃ ds fls, L.items = ds ++ fls ∧
        (∀ it ∈ ds, it.itype = "directory") ∧
        (∀ it ∈ fls, it.itype = "file") ∧
        List.Sorted (fun x y : DirItem => strLe x.name y.name = true) ds ∧
        List.Sorted (fun x y : DirItem => strLe x.name y.name = true) fls := by
    intro items cp pp hL hs
    subst hL
    refine ⟨_, _, rfl, ?_, ?_,
      hs.sublist (List.filter_sublist items), hs.sublist (List.filter_sublist items)⟩
    · intro it hit
      simpa using (List.mem_filter.mp hit).2
    · intro it hit
      simpa using (List.mem_filter.mp hit).2
  unfold api_browse_raw at h
  dsimp only at h
  repeat' split at h
  any_goals exact BrowseResult.noConfusion h
  all_goals injection h with h2
  all_goals exact main _ _ _ h2.symm (buildItems_sorted _ _ _ _ (sortStrings_sorted raw))

/-! ### Claim theorems -/

/-- C1: the claim says every path passing the sandbox check lands under
the canonical root at a separator boundary, so the sibling /home/dragonX
is rejected with AccessDenied. The code uses plain startswith, so a
candidate canonicalizing to /home/dragonX passes the check and browsing
succeeds with HTTP 200 instead of AccessDenied: the claim fails on the
code at this input. -/
theorem c1_sibling_directory_accepted :
    startswithStr "/home/dragonX" "/home/dragon" = true ∧
    fsC1.realpath (joinPath PROJECT_ROOT "link") = "/home/dragonX" ∧
    boundaryWithin (fsC1.realpath PROJECT_ROOT)
      (fsC1.realpath (joinPath PROJECT_ROOT "link")) = false ∧
    api_browse fsC1 "link" =
      .ok { current_path := "link", items := [], parent_path := some "" } ∧
    api_browse fsC1 "link" ≠ .accessDenied ∧
    (api_browse fsC1 "link").status = 200 := by
  decide

/-- C2: any relative path containing a parent-directory segment or
beginning with a separator is rejected by both handlers with the
InvalidPath error (HTTP 400), for every filesystem state whatsoever, so
no filesystem operation can influence the outcome. -/
theorem c2_syntactic_prefilter (fs : FS) (p : String)
    (h : ['.', '.'] ∈ segmentsCh p.data ∨ startsWithSlash p = true) :
    api_browse fs p = .invalidPath ∧ (api_browse fs p).status = 400 ∧
    api_read_file fs p = .invalidPath ∧ (api_read_file fs p).status = 400 := by
  have hcond : (hasDotDot p.data || startsWithSlash p) = true := by
    rcases h with h | h
    · rw [hasDotDot_of_segment h]
      rfl
    · rw [h]
      simp
  have h1 : api_browse fs p = .invalidPath := by
    simp [api_browse, api_browse_raw, hcond]
  have h2 : api_read_file fs p = .invalidPath := by
    simp [api_read_file, hcond]
  exact ⟨h1, by rw [h1]; rfl, h2, by rw [h2]; rfl⟩

theorem c2_witness :
    api_browse fsEmpty "../../etc/passwd" = .invalidPath ∧
    (api_browse fsEmpty "../../etc/passwd").status = 400 ∧
    api_read_file fsEmpty "../../etc/passwd" = .invalidPath ∧
    (api_read_file fsEmpty "../../etc/passwd").status = 400 :=
  c2_syntactic_prefilter fsEmpty "../../etc/passwd" (Or.inl (by decide))

/-- C3: the contents of a subdirectory whose name is excluded (leading
dot or in the noise set) never contribute to the count, whatever they
are, and in the scenario with .git, a.txt and sub/b.txt the count is 2. -/
theorem c3_excluded_dirs_not_counted :
    (∀ (d : String) (cs es : List (String × FsTree)), excluded d = true →
        countChildren ((d, FsTree.dir cs) :: es) = countChildren es) ∧
    count_files (FsTree.dir [(".git", FsTree.dir [("HEAD", FsTree.file 5)]),
        ("a.txt", FsTree.file 1), ("sub", FsTree.dir [("b.txt", FsTree.file 2)])]) = 2 := by
  constructor
  · intro d cs es hd
    simp [countChildren, hd]
  · simp [count_files, countChildren, excluded, startswithStr, List.isPrefixOf]

theorem c3_witness :
    excluded ".git" = true ∧
    countChildren ((".git", FsTree.dir [("HEAD", FsTree.file 5)]) ::
        [("a.txt", FsTree.file 1)]) = countChildren [("a.txt", FsTree.file 1)] :=
  ⟨by decide, c3_excluded_dirs_not_counted.1 ".git" [("HEAD", FsTree.file 5)]
      [("a.txt", FsTree.file 1)] (by decide)⟩

/-- C9: the syntactic pre-filter tests for the two-character substring
anywhere in the path, so names such as notes..txt or a..b/file are
rejected with InvalidPath (HTTP 400) although neither contains a
parent-directory segment. -/
theorem c9_substring_rejection (fs : FS) :
    api_browse fs "notes..txt" = .invalidPath ∧
    (api_browse fs "notes..txt").status = 400 ∧
    api_read_file fs "notes..txt" = .invalidPath ∧
    api_browse fs "a..b/file" = .invalidPath ∧
    api_read_file fs "a..b/file" = .invalidPath ∧
    (api_read_file fs "a..b/file").status = 400 ∧
    ¬ ['.', '.'] ∈ segmentsCh "notes..txt".data ∧
    ¬ ['.', '.'] ∈ segmentsCh "a..b/file".data := by
  have hb1 : (hasDotDot "notes..txt".data || startsWithSlash "notes..txt") = true := by decide
  have hb2 : (hasDotDot "a..b/file".data || startsWithSlash "a..b/file") = true := by decide
  have e1 : api_browse fs "notes..txt" = .invalidPath := by
    simp [api_browse, api_browse_raw, hb1]
  have e2 : api_read_file fs "notes..txt" = .invalidPath := by
    simp [api_read_file, hb1]
  have e3 : api_browse fs "a..b/file" = .invalidPath := by
    simp [api_browse, api_browse_raw, hb2]
  have e4 : api_read_file fs "a..b/file" = .invalidPath := by
    simp [api_read_file, hb2]
  exact ⟨e1, by rw [e1]; rfl, e2, e3, e4, by rw [e4]; rfl, by decide, by decide⟩

/-- C10: count_files never filters files, only directories, so a hidden
file that is a direct child is counted; api_browse filters the same
hidden name out of its listing, so the count exceeds everything browsing
can show: with .secret as only child the count is 1 and the listing is
empty. -/
theorem c10_hidden_files_counted :
    (∀ (n : String) (m : Nat) (rest : List (String × FsTree)),
        startswithStr n "." = true →
        countChildren ((n, FsTree.file m) :: rest) = 1 + countChildren rest) ∧
    count_files (fsHidden.tree PROJECT_ROOT) = 1 ∧
    browseHidden ".secret" = true ∧
    api_browse fsHidden "" =
      .ok { current_path := "", items := [], parent_path := none } := by
  refine ⟨?_, ?_, by decide, by decide⟩
  · intro n m rest hn
    simp [countChildren]
  · simp [count_files, countChildren, fsHidden, PROJECT_ROOT]

theorem c10_witness :
    startswithStr ".secret" "." = true ∧
    countChildren [(".secret", FsTree.file 7)] = 1 + countChildren [] :=
  ⟨by decide, c10_hidden_files_counted.1 ".secret" 7 [] (by decide)⟩

/-- C4: in every successful api_browse listing the items decompose into
the directory block followed by the file block, each block sorted by name
in the code-point order Python uses, and in the concrete scenario the
children zeta.txt, Alpha, beta.txt list as Alpha, beta.txt, zeta.txt. -/
theorem c4_listing_order :
    (∀ (fs : FS) (p : String) (L : DirectoryListing), api_browse fs p = .ok L →
      ∃ ds fls, L.items = ds ++ fls ∧
        (∀ it ∈ ds, it.itype = "directory") ∧
        (∀ it ∈ fls, it.itype = "file") ∧
        List.Sorted (fun x y : DirItem => strLe x.name y.name = true) ds ∧
        List.Sorted (fun x y : DirItem => strLe x.name y.name = true) fls) ∧
    api_browse fsScen "d" = .ok scenListing ∧
    scenListing.items.map DirItem.name = ["Alpha", "beta.txt", "zeta.txt"] := by
  refine ⟨?_, by decide, by decide⟩
  intro fs p L h
  exact api_browse_raw_ok_shape fs _ p L h

theorem c4_witness :
    api_browse fsScen "d" = .ok scenListing ∧
    (∃ ds fls, scenListing.items = ds ++ fls ∧
      (∀ it ∈ ds, it.itype = "directory") ∧
      (∀ it ∈ fls, it.itype = "file") ∧
      List.Sorted (fun x y : DirItem => strLe x.name y.name = true) ds ∧
      List.Sorted (fun x y : DirItem => strLe x.name y.name = true) fls) :=
  ⟨by decide, c4_listing_order.1 fsScen "d" scenListing (by decide)⟩

/-- C8: the listing operation is insensitive to the unspecified order in
which listdir returns the children (the code sorts them), so runs against
the same directory contents give identical results; api_browse is the
raw variant applied to the oracle listing, so repeated calls on one
filesystem state agree definitionally. -/
theorem c8_order_insensitive (fs : FS) (p : String) (raw1 raw2 : List String)
    (h : raw1.Perm raw2) :
    api_browse_raw fs raw1 p = api_browse_raw fs raw2 p ∧
    api_browse fs p = api_browse_raw fs
      (fs.listdirRaw (if p = "" then PROJECT_ROOT else joinPath PROJECT_ROOT p)) p := by
  constructor
  · unfold api_browse_raw
    rw [sortStrings_eq_of_perm h]
  · rfl

theorem c8_witness :
    (["b", "a"].Perm ["a", "b"]) ∧
    api_browse_raw fsEmpty ["b", "a"] "x" = api_browse_raw fsEmpty ["a", "b"] "x" :=
  ⟨by decide, (c8_order_insensitive fsEmpty "x" ["b", "a"] ["a", "b"] (by decide)).1⟩

/-- Under passing sandbox, existence and file checks, api_read_file is
the size gate followed by the decode branch. -/
theorem api_read_file_reduce (fs : FS) (p : String)
    (hsyn : (hasDotDot p.data || startsWithSlash p) = false)
    (hsand : startswithStr (fs.realpath (joinPath PROJECT_ROOT p))
      (fs.realpath PROJECT_ROOT) = true)
    (hex : fs.pathExists (joinPath PROJECT_ROOT p) = true)
    (hfile : fs.isFile (joinPath PROJECT_ROOT p) = true) :
    api_read_file fs p =
      if 1024 * 1024 < fs.getsize (joinPath PROJECT_ROOT p) then
        .tooLarge (tooLargeMessage (fs.getsize (joinPath PROJECT_ROOT p)))
      else
        match decodeUtf8 (fs.bytes (joinPath PROJECT_ROOT p)) with
        | some cs => .okText (basename p) p ⟨cs⟩ (fs.getsize (joinPath PROJECT_ROOT p))
        | none => .binary (basename p) p (fs.getsize (joinPath PROJECT_ROOT p)) := by
  simp only [api_read_file, hsyn, hsand, hex, hfile, Bool.not_true, Bool.false_eq_true,
    if_false, gt_iff_lt]

/-- C5: given that the syntactic, sandbox, existence and file checks
pass, the read fails with TooLarge (HTTP 413) exactly when the size
exceeds 1048576 bytes; the message then reports the size in mebibytes to
two decimals, and at exactly 2097152 bytes it reads 2.00MB. -/
theorem c5_too_large (fs : FS) (p : String)
    (hsyn : (hasDotDot p.data || startsWithSlash p) = false)
    (hsand : startswithStr (fs.realpath (joinPath PROJECT_ROOT p))
      (fs.realpath PROJECT_ROOT) = true)
    (hex : fs.pathExists (joinPath PROJECT_ROOT p) = true)
    (hfile : fs.isFile (joinPath PROJECT_ROOT p) = true) :
    ((∃ m, api_read_file fs p = .tooLarge m) ↔
      1048576 < fs.getsize (joinPath PROJECT_ROOT p)) ∧
    (1048576 < fs.getsize (joinPath PROJECT_ROOT p) →
      api_read_file fs p = .tooLarge (tooLargeMessage (fs.getsize (joinPath PROJECT_ROOT p))) ∧
      (api_read_file fs p).status = 413) ∧
    (fs.getsize (joinPath PROJECT_ROOT p) = 2097152 →
      api_read_file fs p = .tooLarge "File size: 2.00MB. Maximum: 1MB") := by
  have hred := api_read_file_reduce fs p hsyn hsand hex hfile
  rw [show (1024 * 1024 : Nat) = 1048576 from rfl] at hred
  refine ⟨⟨?_, ?_⟩, ?_, ?_⟩
  · rintro ⟨m, hm⟩
    by_cases hgt : 1048576 < fs.getsize (joinPath PROJECT_ROOT p)
    · exact hgt
    · rw [hred, if_neg hgt] at hm
      cases hdec : decodeUtf8 (fs.bytes (joinPath PROJECT_ROOT p)) <;>
        rw [hdec] at hm <;> exact ReadResult.noConfusion hm
  · intro hgt
    exact ⟨_, by rw [hred, if_pos hgt]⟩
  · intro hgt
    have he : api_read_file fs p =
        .tooLarge (tooLargeMessage (fs.getsize (joinPath PROJECT_ROOT p))) := by
      rw [hred, if_pos hgt]
    exact ⟨he, by rw [he]; rfl⟩
  · intro h2
    rw [hred, h2, if_pos (by norm_num)]
    decide

theorem c5_witness :
    api_read_file fsBig "big.bin" = .tooLarge "File size: 2.00MB. Maximum: 1MB" :=
  (c5_too_large fsBig "big.bin" (by decide) (by decide) (by decide) (by decide)).2.2
    (by decide)

/-- C6: given that the earlier checks pass and the size is within the
ceiling, a decode failure yields the binary outcome (HTTP 415) carrying
name, relative path and size and no content, while a successful decode
yields the full decoded content with the text kind (HTTP 200). -/
theorem c6_binary_detection (fs : FS) (p : String)
    (hsyn : (hasDotDot p.data || startsWithSlash p) = false)
    (hsand : startswithStr (fs.realpath (joinPath PROJECT_ROOT p))
      (fs.realpath PROJECT_ROOT) = true)
    (hex : fs.pathExists (joinPath PROJECT_ROOT p) = true)
    (hfile : fs.isFile (joinPath PROJECT_ROOT p) = true)
    (hsize : ¬ 1048576 < fs.getsize (joinPath PROJECT_ROOT p)) :
    (decodeUtf8 (fs.bytes (joinPath PROJECT_ROOT p)) = none →
      api_read_file fs p = .binary (basename p) p (fs.getsize (joinPath PROJECT_ROOT p)) ∧
      (api_read_file fs p).status = 415) ∧
    (∀ cs, decodeUtf8 (fs.bytes (joinPath PROJECT_ROOT p)) = some cs →
      api_read_file fs p = .okText (basename p) p ⟨cs⟩ (fs.getsize (joinPath PROJECT_ROOT p)) ∧
      (api_read_file fs p).status = 200) := by
  have hred := api_read_file_reduce fs p hsyn hsand hex hfile
  rw [show (1024 * 1024 : Nat) = 1048576 from rfl, if_neg hsize] at hred
  constructor
  · intro hdec
    have he : api_read_file fs p =
        .binary (basename p) p (fs.getsize (joinPath PROJECT_ROOT p)) := by
      rw [hred, hdec]
    exact ⟨he, by rw [he]; rfl⟩
  · intro cs hdec
    have he : api_read_file fs p =
        .okText (basename p) p ⟨cs⟩ (fs.getsize (joinPath PROJECT_ROOT p)) := by
      rw [hred, hdec]
    exact ⟨he, by rw [he]; rfl⟩

theorem c6_witness :
    api_read_file fsBlob "blob.bin" = .binary "blob.bin" "blob.bin" 3 ∧
    (api_read_file fsBlob "blob.bin").status = 415 :=
  (c6_binary_detection fsBlob "blob.bin" (by decide) (by decide) (by decide) (by decide)
    (by decide)).1 (by decide)

/-- C7: every emitted entry corresponds to a configured name whose
directory exists under the root (missing directories produce nothing),
and the output is the project-category block in configured order followed
by the tooling-category block in configured order. -/
theorem c7_registry (fs : FS) :
    (∀ e ∈ get_projects fs,
      ((e.name ∈ main_projects.map Prod.fst ∧ e.ptype = "project") ∨
       (e.name ∈ tooling_areas.map Prod.fst ∧ e.ptype = "tooling")) ∧
      fs.pathExists (joinPath PROJECT_ROOT e.name) = true) ∧
    (∃ ps ts, get_projects fs = ps ++ ts ∧
      ps.map ProjectInfo.name =
        (main_projects.map Prod.fst).filter (fun n => fs.pathExists (joinPath PROJECT_ROOT n)) ∧
      ts.map ProjectInfo.name =
        (tooling_areas.map Prod.fst).filter (fun n => fs.pathExists (joinPath PROJECT_ROOT n)) ∧
      (∀ e ∈ ps, e.ptype = "project") ∧ (∀ e ∈ ts, e.ptype = "tooling")) := by
  constructor
  · intro e he
    unfold get_projects at he
    rcases List.mem_append.mp he with h | h
    · obtain ⟨nd, hnd, rfl⟩ := List.mem_map.mp h
      have hm := List.mem_filter.mp hnd
      exact ⟨Or.inl ⟨List.mem_map_of_mem Prod.fst hm.1, rfl⟩, hm.2⟩
    · obtain ⟨nd, hnd, rfl⟩ := List.mem_map.mp h
      have hm := List.mem_filter.mp hnd
      exact ⟨Or.inr ⟨List.mem_map_of_mem Prod.fst hm.1, rfl⟩, hm.2⟩
  · refine ⟨(main_projects.filter
        (fun (nd : String × String) => fs.pathExists (joinPath PROJECT_ROOT nd.1))).map
        (fun (nd : String × String) => projectEntry fs "project"
          (get_project_status fs (joinPath PROJECT_ROOT nd.1)) nd),
      (tooling_areas.filter
        (fun (nd : String × String) => fs.pathExists (joinPath PROJECT_ROOT nd.1))).map
        (fun (nd : String × String) => projectEntry fs "tooling" "active" nd),
      rfl, ?_, ?_, ?_, ?_⟩
    · rw [List.map_map, List.filter_map]
      rfl
    · rw [List.map_map, List.filter_map]
      rfl
    · intro e he
      obtain ⟨nd, -, rfl⟩ := List.mem_map.mp he
      rfl
    · intro e he
      obtain ⟨nd, -, rfl⟩ := List.mem_map.mp he
      rfl

theorem c7_witness :
    (get_projects fsReg).map ProjectInfo.name = ["trading", "project-dashboard"] ∧
    (∃ ps ts, get_projects fsReg = ps ++ ts ∧
      ps.map ProjectInfo.name = (main_projects.map Prod.fst).filter
        (fun n => fsReg.pathExists (joinPath PROJECT_ROOT n)) ∧
      ts.map ProjectInfo.name = (tooling_areas.map Prod.fst).filter
        (fun n => fsReg.pathExists (joinPath PROJECT_ROOT n)) ∧
      (∀ e ∈ ps, e.ptype = "project") ∧ (∀ e ∈ ts, e.ptype = "tooling")) :=
  ⟨by rfl, (c7_registry fsReg).2⟩

theorem c9_witness :
    api_browse fsEmpty "notes..txt" = .invalidPath ∧
    (api_browse fsEmpty "notes..txt").status = 400 ∧
    api_read_file fsEmpty "notes..txt" = .invalidPath ∧
    api_browse fsEmpty "a..b/file" = .invalidPath ∧
    api_read_file fsEmpty "a..b/file" = .invalidPath ∧
    (api_read_file fsEmpty "a..b/file").status = 400 ∧
    ¬ ['.', '.'] ∈ segmentsCh "notes..txt".data ∧
    ¬ ['.', '.'] ∈ segmentsCh "a..b/file".data :=
  c9_substring_rejection fsEmpty
